import Mathlib

/-!
Shallow embedding of `src/static/js/gd-lightbox.js` (GR8DATE lightbox).

The widget scans the document for `a[data-lightbox]` anchors, partitions
them into named groups, and drives an overlay through `open`, `showIndex`
and `hide`.  Anchors are modelled as records of the attributes the code
reads; the document is the list of anchors in document order.  The group
Map (`STATE.groups`) is an association list in insertion order; the
singleton `STATE` record becomes an explicit `State` value threaded
through pure transition functions.  JS `null` attribute reads are
`Option.none`; the JS truthiness of `x || y` on strings is `strOr`.
`State.openCalls` is a ghost counter incremented by each invocation of
`open`, used to reason about how many times click dispatch invokes it.
-/

namespace GdLightbox

/-- One anchor element, carrying exactly the attributes the code reads.
`dataLightbox` is the `data-lightbox` attribute (`none` when absent, in
which case the `a[data-lightbox]` selector does not match the anchor).
`imgAlt` is the `alt` attribute of a contained `img`, `none` when there
is no contained image or it has no `alt` attribute (both read as falsy
by the code, hence collapsed). -/
structure Anchor where
  dataLightbox : Option String
  href : Option String
  dataTitle : Option String
  title : Option String
  imgAlt : Option String
deriving DecidableEq, Repr

/-- JS `x || y` on nullable strings: `null` and `""` are falsy. -/
def strOr (x y : Option String) : Option String :=
  match x with
  | some s => if s = "" then y else some s
  | none => y

/-- The caption chain of `prepareGroups`:
`a.getAttribute('data-title') || a.getAttribute('title') ||
 a.querySelector('img')?.getAttribute('alt') || ''`. -/
def caption (a : Anchor) : String :=
  (strOr a.dataTitle (strOr a.title a.imgAlt)).getD ""

/-- The group key of `prepareGroups`:
`a.getAttribute('data-lightbox') || '_default'`. -/
def groupKey (a : Anchor) : String :=
  match a.dataLightbox with
  | some v => if v = "" then "_default" else v
  | none => "_default"

/-- One entry of a group: `{ link: a, src, title }`.  `link` is the
identity of the originating anchor, modelled by its position in the
document; `src` is the raw `href` attribute (`none` when absent);
`title` is the resolved caption. -/
structure Item where
  link : Nat
  src : Option String
  title : String
deriving DecidableEq, Repr

/-- The item pushed for the anchor at document position `i`. -/
def mkItem (i : Nat) (a : Anchor) : Item :=
  { link := i, src := a.href, title := caption a }

/-- `STATE.groups`: a string-keyed Map in insertion order. -/
abbrev Groups := List (String × List Item)

/-- `groups.get(name)` (`none` for `undefined`). -/
def findGroup (gs : Groups) (g : String) : Option (List Item) :=
  match gs with
  | [] => none
  | (k, items) :: rest => if k = g then some items else findGroup rest g

/-- `groups.get(name) || []`. -/
def groupItems (gs : Groups) (g : String) : List Item :=
  (findGroup gs g).getD []

/-- `groups.has(name)`. -/
def hasGroup (gs : Groups) (g : String) : Bool :=
  gs.any (fun p => p.1 = g)

/-- `if (!groups.has(g)) groups.set(g, []); groups.get(g).push(it)`:
append `it` to the group named `g`, creating the group at the end of
the insertion order when it is new. -/
def addToGroup (gs : Groups) (g : String) (it : Item) : Groups :=
  match gs with
  | [] => [(g, [it])]
  | (k, items) :: rest =>
      if k = g then (k, items ++ [it]) :: rest
      else (k, items) :: addToGroup rest g it

/-- The `forEach` body of `prepareGroups`, restricted to its effect on
the group table: anchors matched by `a[data-lightbox]` (attribute
present) are pushed onto their group; `n` is the document position of
the head of the remaining list. -/
def buildGroupsFrom (n : Nat) (gs : Groups) : List Anchor → Groups
  | [] => gs
  | a :: rest =>
      if a.dataLightbox.isSome then
        buildGroupsFrom (n + 1) (addToGroup gs (groupKey a) (mkItem n a)) rest
      else
        buildGroupsFrom (n + 1) gs rest

/-- The group table built by `prepareGroups` from a document (after
`STATE.groups.clear()` the table is rebuilt from empty). -/
def buildGroups (doc : List Anchor) : Groups :=
  buildGroupsFrom 0 [] doc

/-- A click interceptor attached by `prepareGroups`: the anchor it is
attached to, and the `group` and `src` values captured by its closure. -/
structure Listener where
  anchor : Nat
  group : String
  src : Option String
deriving DecidableEq, Repr

/-- The interceptors one call of `prepareGroups` attaches, in document
order, starting at document position `n`. -/
def listenersFrom (n : Nat) : List Anchor → List Listener
  | [] => []
  | a :: rest =>
      (if a.dataLightbox.isSome then [⟨n, groupKey a, a.href⟩] else [])
        ++ listenersFrom (n + 1) rest

/-- All interceptors one call of `prepareGroups` attaches. -/
def listenersFor (doc : List Anchor) : List Listener :=
  listenersFrom 0 doc

/-- The singleton `STATE`, together with the observable pieces of the
overlay DOM the code writes: image source and alt text, caption text,
and the visibility of the three controls.  `overlayBuilt` is
`STATE.overlay !== null`; `overlayOpen` is the `is-open` class;
`scrollLock` is the `gd-lightbox-lock` class on the document root.
`listeners` accumulates every click interceptor ever attached (DOM
listeners are never removed).  `openCalls` is a ghost counter of
invocations of `open`. -/
structure State where
  groups : Groups
  currentGroup : Option String
  currentIndex : Int
  overlayBuilt : Bool
  overlayOpen : Bool
  scrollLock : Bool
  imgSrc : Option String
  imgAlt : String
  captionText : String
  prevVisible : Bool
  nextVisible : Bool
  closeVisible : Bool
  listeners : List Listener
  openCalls : Nat
deriving DecidableEq, Repr

/-- The state at script start: empty group table, no overlay, index at
the unset sentinel `-1`. -/
def initState : State :=
  { groups := []
    currentGroup := none
    currentIndex := -1
    overlayBuilt := false
    overlayOpen := false
    scrollLock := false
    imgSrc := none
    imgAlt := ""
    captionText := ""
    prevVisible := false
    nextVisible := false
    closeVisible := false
    listeners := []
    openCalls := 0 }

/-- `buildOverlay()`: a no-op when the overlay exists, otherwise
constructs the overlay markup (image with empty `alt` and no `src`,
empty caption, all three buttons at their default visible display,
no `is-open` class). -/
def buildOverlay (s : State) : State :=
  if s.overlayBuilt then s
  else
    { s with
      overlayBuilt := true
      overlayOpen := false
      imgSrc := none
      imgAlt := ""
      captionText := ""
      prevVisible := true
      nextVisible := true
      closeVisible := true }

/-- `STATE.groups.get(STATE.currentGroup) || []` (a `null` group name
is not a key of the string-keyed Map). -/
def currentItems (s : State) : List Item :=
  match s.currentGroup with
  | none => []
  | some g => groupItems s.groups g

/-- Out-of-range placeholder for list indexing; never read when the
index is in range, which the `showIndex` clamping guarantees. -/
def defaultItem : Item :=
  { link := 0, src := none, title := "" }

/-- `showIndex(i)`: no-op on an empty item list; otherwise clamp `i`
circularly (below zero jumps to the last item, at or beyond the length
jumps to zero), record it as the current index, render the item at that
index (image source and alt, caption text), and show the prev/next
controls exactly when the group has more than one item.
`STATE.img.alt = title || ''` and `STATE.caption.textContent =
title || ''` coincide with `title` because `title` is a string. -/
def showIndex (i : Int) (s : State) : State :=
  let items := currentItems s
  if items.length = 0 then s
  else
    let i1 : Int := if i < 0 then (items.length : Int) - 1 else i
    let i2 : Int := if i1 ≥ (items.length : Int) then 0 else i1
    let it := items.getD i2.toNat defaultItem
    { s with
      currentIndex := i2
      imgSrc := it.src
      imgAlt := it.title
      captionText := it.title
      prevVisible := decide (1 < items.length)
      nextVisible := decide (1 < items.length) }

/-- `hide()`: remove the `is-open` class, release the scroll lock,
reset the index to the unset sentinel. -/
def hide (s : State) : State :=
  { s with overlayOpen := false, scrollLock := false, currentIndex := -1 }

/-- JS `Array.prototype.findIndex`: index of the first element
satisfying `p`, `-1` when none does. -/
def jsFindIndex (p : Item → Bool) : List Item → Int
  | [] => -1
  | it :: rest =>
      if p it then 0
      else
        let r := jsFindIndex p rest
        if r < 0 then -1 else r + 1

/-- `open(group, src)` (named `openLb` because `open` is a keyword):
ensure the overlay exists, record the group, resolve the start index by
`findIndex` over the group items (strict equality on the nullable
source), mark the overlay open, lock scrolling, and show the resolved
index (`0` when `findIndex` returned `-1`). -/
def openLb (group : String) (src : Option String) (s : State) : State :=
  let s1 := buildOverlay s
  let s2 := { s1 with currentGroup := some group, openCalls := s1.openCalls + 1 }
  let arr := groupItems s2.groups group
  let idx := jsFindIndex (fun it => decide (it.src = src)) arr
  let s3 := { s2 with overlayOpen := true, scrollLock := true }
  showIndex (if idx < 0 then 0 else idx) s3

/-- `prepareGroups()`: clear and rebuild the group table from the
current document and attach a fresh click interceptor to every matched
anchor (previously attached interceptors stay). -/
def prepareGroups (doc : List Anchor) (s : State) : State :=
  { s with
    groups := buildGroups doc
    listeners := s.listeners ++ listenersFor doc }

/-- The global `keydown` listener.  It is registered (once) inside
`buildOverlay`, so it is live only when the overlay has been built, and
it is gated solely by the `is-open` visibility class. -/
def keydown (key : String) (s : State) : State :=
  if s.overlayBuilt then
    if ¬s.overlayOpen then s
    else if key = "Escape" then hide s
    else if key = "ArrowLeft" then showIndex (s.currentIndex - 1) s
    else if key = "ArrowRight" then showIndex (s.currentIndex + 1) s
    else s
  else s

/-- The fields of a mouse click the interceptor inspects. -/
structure Click where
  button : Nat
  metaKey : Bool
  ctrlKey : Bool
  shiftKey : Bool
  altKey : Bool
deriving DecidableEq, Repr

/-- The interceptor guard: primary button, no modifier keys. -/
def plainClick (c : Click) : Bool :=
  c.button = 0 && !c.metaKey && !c.ctrlKey && !c.shiftKey && !c.altKey

/-- Dispatch of a click on the anchor at document position `aIdx`:
every interceptor attached to that anchor runs in attachment order;
each one passes its guard (or not) with the same event and then calls
`open(group, src)` with its captured values. -/
def clickAnchor (aIdx : Nat) (c : Click) (s : State) : State :=
  if plainClick c then
    (s.listeners.filter (fun l => l.anchor == aIdx)).foldl
      (fun st l => openLb l.group l.src st) s
  else s

/-! ### Claim-side definitions

These restate, in the words of the specification, what the group table
and the caption resolution are supposed to contain; the theorems below
compare them with the table `buildGroups` actually builds. -/

/-- The items the specification expects in group `g`: the eligible
anchors (group-name attribute present) whose declared key is `g`, in
document order, starting at document position `n`. -/
def docOrderItems (n : Nat) (g : String) : List Anchor → List Item
  | [] => []
  | a :: rest =>
      (if a.dataLightbox.isSome ∧ groupKey a = g then [mkItem n a] else [])
        ++ docOrderItems (n + 1) g rest

/-- The position of the first element of the list satisfying `p`. -/
def firstMatch (p : Item → Bool) : List Item → Option Nat
  | [] => none
  | it :: rest => if p it then some 0 else (firstMatch p rest).map (· + 1)

/-- Caption resolution exactly as the claim words it: the explicit
title attribute if present, else the generic title attribute, else the
contained image alternative text, else the empty string — presence
alone decides, an empty value is still a present attribute. -/
def captionClaimed (a : Anchor) : String :=
  match a.dataTitle with
  | some t => t
  | none =>
      match a.title with
      | some t => t
      | none =>
          match a.imgAlt with
          | some t => t
          | none => ""

/-- An attribute read that treats an empty value like an absent one. -/
def nonEmptyAttr : Option String → Option String
  | some t => if t = "" then none else some t
  | none => none

/-- Caption resolution as the amended claim words it: the explicit
title attribute if present with a nonempty value, else the generic
title attribute if present with a nonempty value, else the contained
image alternative text if present with a nonempty value, else the
empty string. -/
def captionAmended (a : Anchor) : String :=
  match nonEmptyAttr a.dataTitle with
  | some t => t
  | none =>
      match nonEmptyAttr a.title with
      | some t => t
      | none =>
          match nonEmptyAttr a.imgAlt with
          | some t => t
          | none => ""

/-- How a group lookup result grows when a batch of items is appended
to that group (creating it when it was absent and the batch is not
empty). -/
def extendGroup : Option (List Item) → List Item → Option (List Item)
  | some xs, ys => some (xs ++ ys)
  | none, [] => none
  | none, ys => some ys

/-! ### Lemmas about the group table -/

theorem findGroup_addToGroup (gs : Groups) (k g : String) (it : Item) :
    findGroup (addToGroup gs k it) g =
      if k = g then some (groupItems gs g ++ [it]) else findGroup gs g := by
  induction gs with
  | nil =>
      by_cases h : k = g <;> simp [addToGroup, findGroup, groupItems, h]
  | cons p rest ih =>
      obtain ⟨k0, items0⟩ := p
      by_cases h0 : k0 = k
      · subst h0
        by_cases h1 : k0 = g
        · subst h1
          simp [addToGroup, findGroup, groupItems]
        · simp [addToGroup, findGroup, h1]
      · by_cases h1 : k0 = g
        · subst h1
          have hkg : ¬k = k0 := fun h => h0 h.symm
          simp [addToGroup, findGroup, groupItems, h0, hkg]
        · simp [addToGroup, findGroup, groupItems, h0, h1, ih]

theorem hasGroup_eq_isSome (gs : Groups) (g : String) :
    hasGroup gs g = (findGroup gs g).isSome := by
  induction gs with
  | nil => simp [hasGroup, findGroup]
  | cons p rest ih =>
      obtain ⟨k, items⟩ := p
      by_cases h : k = g <;> simp [hasGroup, findGroup, h, ← ih]

theorem extendGroup_some (xs ys : List Item) :
    extendGroup (some xs) ys = some (xs ++ ys) := rfl

theorem findGroup_buildGroupsFrom (l : List Anchor) :
    ∀ (n : Nat) (gs : Groups) (g : String),
      findGroup (buildGroupsFrom n gs l) g =
        extendGroup (findGroup gs g) (docOrderItems n g l) := by
  induction l with
  | nil =>
      intro n gs g
      cases h : findGroup gs g <;> simp [buildGroupsFrom, docOrderItems, extendGroup, h]
  | cons a rest ih =>
      intro n gs g
      by_cases he : a.dataLightbox.isSome = true
      · by_cases hk : groupKey a = g
        · have hb : buildGroupsFrom n gs (a :: rest) =
              buildGroupsFrom (n + 1) (addToGroup gs (groupKey a) (mkItem n a)) rest := by
            simp [buildGroupsFrom, he]
          have hd : docOrderItems n g (a :: rest) =
              mkItem n a :: docOrderItems (n + 1) g rest := by
            simp [docOrderItems, he, hk]
          rw [hb, ih, findGroup_addToGroup, if_pos hk, hd]
          cases hfg : findGroup gs g with
          | none => simp [groupItems, hfg, extendGroup]
          | some xs => simp [groupItems, hfg, extendGroup]
        · have hb : buildGroupsFrom n gs (a :: rest) =
              buildGroupsFrom (n + 1) (addToGroup gs (groupKey a) (mkItem n a)) rest := by
            simp [buildGroupsFrom, he]
          have hd : docOrderItems n g (a :: rest) = docOrderItems (n + 1) g rest := by
            simp [docOrderItems, hk]
          rw [hb, ih, findGroup_addToGroup, if_neg hk, hd]
      · have hb : buildGroupsFrom n gs (a :: rest) = buildGroupsFrom (n + 1) gs rest := by
          simp [buildGroupsFrom, he]
        have hd : docOrderItems n g (a :: rest) = docOrderItems (n + 1) g rest := by
          simp [docOrderItems, he]
        rw [hb, ih, hd]

theorem groupItems_buildGroups (doc : List Anchor) (g : String) :
    groupItems (buildGroups doc) g = docOrderItems 0 g doc := by
  have h := findGroup_buildGroupsFrom doc 0 [] g
  rw [buildGroups] at *
  cases hd : docOrderItems 0 g doc with
  | nil => simp [groupItems, h, hd, findGroup, extendGroup]
  | cons x xs => simp [groupItems, h, hd, findGroup, extendGroup]

theorem hasGroup_buildGroups (doc : List Anchor) (g : String) :
    hasGroup (buildGroups doc) g = true ↔ docOrderItems 0 g doc ≠ [] := by
  have h := findGroup_buildGroupsFrom doc 0 [] g
  rw [buildGroups] at *
  rw [hasGroup_eq_isSome, h]
  cases hd : docOrderItems 0 g doc with
  | nil => simp [findGroup, extendGroup]
  | cons x xs => simp [findGroup, extendGroup]

/-! ### Lemmas about the overlay state machine -/

theorem buildOverlay_groups (s : State) : (buildOverlay s).groups = s.groups := by
  unfold buildOverlay; split <;> rfl

theorem buildOverlay_currentGroup (s : State) :
    (buildOverlay s).currentGroup = s.currentGroup := by
  unfold buildOverlay; split <;> rfl

theorem buildOverlay_currentIndex (s : State) :
    (buildOverlay s).currentIndex = s.currentIndex := by
  unfold buildOverlay; split <;> rfl

theorem buildOverlay_openCalls (s : State) : (buildOverlay s).openCalls = s.openCalls := by
  unfold buildOverlay; split <;> rfl

theorem buildOverlay_listeners (s : State) : (buildOverlay s).listeners = s.listeners := by
  unfold buildOverlay; split <;> rfl

theorem showIndex_groups (i : Int) (s : State) : (showIndex i s).groups = s.groups := by
  simp only [showIndex]; split <;> rfl

theorem showIndex_currentGroup (i : Int) (s : State) :
    (showIndex i s).currentGroup = s.currentGroup := by
  simp only [showIndex]; split <;> rfl

theorem showIndex_openCalls (i : Int) (s : State) : (showIndex i s).openCalls = s.openCalls := by
  simp only [showIndex]; split <;> rfl

theorem showIndex_listeners (i : Int) (s : State) : (showIndex i s).listeners = s.listeners := by
  simp only [showIndex]; split <;> rfl

theorem showIndex_closeVisible (i : Int) (s : State) :
    (showIndex i s).closeVisible = s.closeVisible := by
  simp only [showIndex]; split <;> rfl

theorem showIndex_overlayOpen (i : Int) (s : State) :
    (showIndex i s).overlayOpen = s.overlayOpen := by
  simp only [showIndex]; split <;> rfl

theorem showIndex_scrollLock (i : Int) (s : State) :
    (showIndex i s).scrollLock = s.scrollLock := by
  simp only [showIndex]; split <;> rfl

theorem showIndex_currentIndex (s : State) (i : Int)
    (h0 : (currentItems s).length ≠ 0) :
    (showIndex i s).currentIndex =
      if i < 0 then ((currentItems s).length : Int) - 1
      else if i ≥ ((currentItems s).length : Int) then 0 else i := by
  simp only [showIndex]
  rw [if_neg h0]
  by_cases hi : i < 0
  · simp only [if_pos hi]
    rw [if_neg (show ¬((currentItems s).length : Int) - 1 ≥ ((currentItems s).length : Int) by omega)]
  · simp only [if_neg hi]

theorem showIndex_prevVisible (s : State) (i : Int)
    (h0 : (currentItems s).length ≠ 0) :
    (showIndex i s).prevVisible = decide (1 < (currentItems s).length) := by
  simp only [showIndex]
  rw [if_neg h0]

theorem showIndex_nextVisible (s : State) (i : Int)
    (h0 : (currentItems s).length ≠ 0) :
    (showIndex i s).nextVisible = decide (1 < (currentItems s).length) := by
  simp only [showIndex]
  rw [if_neg h0]

theorem showIndex_render (s : State) (i : Int)
    (h0 : (currentItems s).length ≠ 0) :
    (showIndex i s).captionText =
        ((currentItems s).getD ((showIndex i s).currentIndex).toNat defaultItem).title ∧
      (showIndex i s).imgAlt = (showIndex i s).captionText := by
  simp only [showIndex]
  rw [if_neg h0]
  exact ⟨rfl, rfl⟩

theorem showIndex_empty (s : State) (i : Int)
    (h0 : (currentItems s).length = 0) : showIndex i s = s := by
  simp only [showIndex]
  rw [if_pos h0]

/-! ### Lemmas about index resolution -/

theorem firstMatch_lt_length (p : Item → Bool) (l : List Item) :
    ∀ n, firstMatch p l = some n → n < l.length := by
  induction l with
  | nil => intro n h; simp [firstMatch] at h
  | cons it rest ih =>
      intro n h
      by_cases hp : p it
      · simp [firstMatch, hp] at h
        simp only [List.length_cons]
        omega
      · simp [firstMatch, hp] at h
        obtain ⟨m, hm, rfl⟩ := h
        have := ih m hm
        simp
        omega

theorem jsFindIndex_eq_firstMatch (p : Item → Bool) (l : List Item) :
    jsFindIndex p l =
      match firstMatch p l with
      | some n => (n : Int)
      | none => -1 := by
  induction l with
  | nil => rfl
  | cons it rest ih =>
      by_cases hp : p it
      · simp [jsFindIndex, firstMatch, hp]
      · simp only [jsFindIndex, firstMatch, hp, if_neg, Bool.false_eq_true, if_false, ih]
        cases hm : firstMatch p rest with
        | none => simp
        | some m =>
            have : ¬((m : Int) < 0) := by omega
            simp [this]

theorem openLb_def (g : String) (src : Option String) (s : State) :
    openLb g src s =
      showIndex
        (if jsFindIndex (fun it => decide (it.src = src)) (groupItems (buildOverlay s).groups g) < 0
          then 0
          else jsFindIndex (fun it => decide (it.src = src)) (groupItems (buildOverlay s).groups g))
        { buildOverlay s with
          currentGroup := some g
          openCalls := (buildOverlay s).openCalls + 1
          overlayOpen := true
          scrollLock := true } := rfl

theorem showIndex_post_open (s : State) (g : String) (j : Int) (u : State)
    (hg : u.currentGroup = some g) (hgs : u.groups = s.groups)
    (hne : (groupItems s.groups g).length ≠ 0) :
    (showIndex j u).currentIndex =
      if j < 0 then ((groupItems s.groups g).length : Int) - 1
      else if j ≥ ((groupItems s.groups g).length : Int) then 0 else j := by
  have hci : currentItems u = groupItems s.groups g := by
    unfold currentItems; rw [hg, hgs]
  rw [showIndex_currentIndex u j (by rw [hci]; exact hne), hci]

theorem openLb_currentIndex (g : String) (src : Option String) (s : State)
    (hne : groupItems s.groups g ≠ []) :
    (openLb g src s).currentIndex =
      match firstMatch (fun it => decide (it.src = src)) (groupItems s.groups g) with
      | some n => (n : Int)
      | none => 0 := by
  have hfm := jsFindIndex_eq_firstMatch (fun it => decide (it.src = src)) (groupItems s.groups g)
  have hlen0 : (groupItems s.groups g).length ≠ 0 := fun h => hne (List.length_eq_zero.mp h)
  rw [openLb_def,
    showIndex_post_open s g _
      { buildOverlay s with
        currentGroup := some g
        openCalls := (buildOverlay s).openCalls + 1
        overlayOpen := true
        scrollLock := true }
      rfl (buildOverlay_groups s) hlen0,
    buildOverlay_groups]
  cases hm : firstMatch (fun it => decide (it.src = src)) (groupItems s.groups g) with
  | some n =>
      rw [hm] at hfm
      have hlt : n < (groupItems s.groups g).length := firstMatch_lt_length _ _ n hm
      rw [hfm, if_neg (show ¬((n : Int) < 0) by omega),
        if_neg (show ¬((n : Int) < 0) by omega),
        if_neg (show ¬((n : Int) ≥ ((groupItems s.groups g).length : Int)) by omega)]
  | none =>
      rw [hm] at hfm
      rw [hfm, if_pos (show (-1 : Int) < 0 by omega),
        if_neg (show ¬((0 : Int) < 0) by omega),
        if_neg (show ¬((0 : Int) ≥ ((groupItems s.groups g).length : Int)) by omega)]

theorem currentItems_of (u : State) (g : String) (hg : u.currentGroup = some g) :
    currentItems u = groupItems u.groups g := by
  unfold currentItems; rw [hg]

theorem keydown_closed (k : String) (s0 : State) (h : s0.overlayOpen = false) :
    keydown k s0 = s0 := by
  unfold keydown
  rw [h]
  simp

theorem foldl_keydown_closed (s0 : State) (h : s0.overlayOpen = false) :
    ∀ keys : List String, keys.foldl (fun st k => keydown k st) s0 = s0 := by
  intro keys
  induction keys with
  | nil => rfl
  | cons k ks ih => rw [List.foldl_cons, keydown_closed k s0 h]; exact ih

/-! ### Concrete fixtures for the witnesses -/

/-- A small document: three anchors in the `vacation` group (each with
a different caption source) and one anchor with an empty group-name
attribute, which lands in the sentinel group. -/
def docA : List Anchor :=
  [ { dataLightbox := some "vacation", href := some "/a.jpg",
      dataTitle := some "A", title := none, imgAlt := none },
    { dataLightbox := some "vacation", href := some "/b.jpg",
      dataTitle := none, title := some "B", imgAlt := none },
    { dataLightbox := some "vacation", href := some "/c.jpg",
      dataTitle := none, title := none, imgAlt := some "C" },
    { dataLightbox := some "", href := some "/solo.jpg",
      dataTitle := none, title := none, imgAlt := none } ]

/-- The state after page load on `docA`. -/
def sLoaded : State := prepareGroups docA initState

/-- The state after clicking the second `vacation` anchor. -/
def sOpenB : State := openLb "vacation" (some "/b.jpg") sLoaded

/-- The state after opening the single-item sentinel group. -/
def sOpenSolo : State := openLb "_default" (some "/solo.jpg") sLoaded

/-! ### Claims -/

/-- C1: `refresh()` (via `prepareGroups`) partitions the eligible
anchors (those carrying the group-name attribute, matched by the
`a[data-lightbox]` selector) into groups keyed exactly by `groupKey`,
which is the declared attribute value with an absent or empty
attribute mapping to the sentinel `_default`: for every name `g`, the
items stored under `g` are exactly the items of the eligible anchors
whose key is `g`, in document order, and a group named `g` exists
exactly when some eligible anchor declares key `g`. -/
theorem refresh_partitions_groups (doc : List Anchor) (s : State) (g : String) :
    groupItems (prepareGroups doc s).groups g = docOrderItems 0 g doc ∧
      (hasGroup (prepareGroups doc s).groups g = true ↔ docOrderItems 0 g doc ≠ []) :=
  ⟨groupItems_buildGroups doc g, hasGroup_buildGroups doc g⟩

/-- C2: for every group `g` of the table built by `prepareGroups` and
requested source `src`, `open(g, src)` sets the current index to the
position of the first item of `g` whose source equals `src`, and to
`0` when no item of `g` has source `src`. -/
theorem open_resolves_first_matching_index (doc : List Anchor) (s : State)
    (g : String) (src : Option String)
    (hgs : s.groups = buildGroups doc)
    (hmem : hasGroup s.groups g = true) :
    (openLb g src s).currentIndex =
      match firstMatch (fun it => decide (it.src = src)) (groupItems s.groups g) with
      | some n => (n : Int)
      | none => 0 := by
  apply openLb_currentIndex
  rw [hgs, groupItems_buildGroups]
  exact (hasGroup_buildGroups doc g).mp (by rwa [hgs] at hmem)

theorem open_resolves_first_matching_index_witness :
    sLoaded.groups = buildGroups docA ∧
      hasGroup sLoaded.groups "vacation" = true ∧
      (openLb "vacation" (some "/b.jpg") sLoaded).currentIndex = 1 :=
  ⟨rfl, by decide,
    (open_resolves_first_matching_index docA sLoaded "vacation" (some "/b.jpg")
      rfl (by decide)).trans (by decide)⟩

/-- C3: for an open group of length `N ≥ 1`, `showIndex (-1)` yields
index `N - 1` and `showIndex N` yields index `0`; when `N = 1`, both
prev (`showIndex (current - 1)`) and next (`showIndex (current + 1)`)
yield index `0`, the prev and next controls are hidden, and the close
control stays visible. -/
theorem showIndex_wraps_circularly (s : State) (g : String) (N : Nat)
    (hg : s.currentGroup = some g)
    (hlen : (groupItems s.groups g).length = N)
    (hN : 1 ≤ N)
    (hclose : s.closeVisible = true) :
    (showIndex (-1) s).currentIndex = (N : Int) - 1 ∧
      (showIndex (N : Int) s).currentIndex = 0 ∧
      (N = 1 →
        (showIndex (s.currentIndex - 1) s).currentIndex = 0 ∧
          (showIndex (s.currentIndex + 1) s).currentIndex = 0 ∧
          (showIndex (s.currentIndex - 1) s).prevVisible = false ∧
          (showIndex (s.currentIndex - 1) s).nextVisible = false ∧
          (showIndex (s.currentIndex + 1) s).prevVisible = false ∧
          (showIndex (s.currentIndex + 1) s).nextVisible = false ∧
          (showIndex (s.currentIndex - 1) s).closeVisible = true ∧
          (showIndex (s.currentIndex + 1) s).closeVisible = true) := by
  have hci : currentItems s = groupItems s.groups g := currentItems_of s g hg
  have hlen' : (currentItems s).length = N := by rw [hci, hlen]
  have h0 : (currentItems s).length ≠ 0 := by omega
  refine ⟨?_, ?_, ?_⟩
  · rw [showIndex_currentIndex s _ h0, if_pos (show (-1 : Int) < 0 by omega), hlen']
  · rw [showIndex_currentIndex s _ h0, if_neg (show ¬((N : Int) < 0) by omega),
      if_pos (show (N : Int) ≥ ((currentItems s).length : Int) by omega)]
  · intro h1
    have hidx : ∀ j : Int, (showIndex j s).currentIndex = 0 := by
      intro j
      rw [showIndex_currentIndex s _ h0]
      split_ifs <;> omega
    have hpv : ∀ j : Int, (showIndex j s).prevVisible = false := by
      intro j
      rw [showIndex_prevVisible s _ h0, hlen', h1]
      decide
    have hnv : ∀ j : Int, (showIndex j s).nextVisible = false := by
      intro j
      rw [showIndex_nextVisible s _ h0, hlen', h1]
      decide
    exact ⟨hidx _, hidx _, hpv _, hnv _, hpv _, hnv _,
      by rw [showIndex_closeVisible]; exact hclose,
      by rw [showIndex_closeVisible]; exact hclose⟩

theorem showIndex_wraps_circularly_witness :
    sOpenSolo.currentGroup = some "_default" ∧
      (groupItems sOpenSolo.groups "_default").length = 1 ∧
      1 ≤ 1 ∧
      sOpenSolo.closeVisible = true ∧
      ((showIndex (-1) sOpenSolo).currentIndex = (1 : Int) - 1 ∧
        (showIndex ((1 : Nat) : Int) sOpenSolo).currentIndex = 0 ∧
        (1 = 1 →
          (showIndex (sOpenSolo.currentIndex - 1) sOpenSolo).currentIndex = 0 ∧
            (showIndex (sOpenSolo.currentIndex + 1) sOpenSolo).currentIndex = 0 ∧
            (showIndex (sOpenSolo.currentIndex - 1) sOpenSolo).prevVisible = false ∧
            (showIndex (sOpenSolo.currentIndex - 1) sOpenSolo).nextVisible = false ∧
            (showIndex (sOpenSolo.currentIndex + 1) sOpenSolo).prevVisible = false ∧
            (showIndex (sOpenSolo.currentIndex + 1) sOpenSolo).nextVisible = false ∧
            (showIndex (sOpenSolo.currentIndex - 1) sOpenSolo).closeVisible = true ∧
            (showIndex (sOpenSolo.currentIndex + 1) sOpenSolo).closeVisible = true)) :=
  ⟨by decide, by decide, by decide, by decide,
    showIndex_wraps_circularly sOpenSolo "_default" 1
      (by decide) (by decide) (by decide) (by decide)⟩

/-- C4: opening a group name with zero indexed items (an unknown name
included) from a closed session leaves the session unbroken: the only
changes are the overlay construction, the recorded group name, the
open and scroll-lock flags (and the ghost call counter); `showIndex`
is a no-op, so the current index stays at the unset sentinel `-1`,
nothing new is rendered, and the function returns normally (the
embedding is total: no error is signalled to the caller). -/
theorem open_empty_group_no_op (s : State) (g : String) (src : Option String)
    (hempty : groupItems s.groups g = [])
    (hclosed : s.currentIndex = -1) :
    openLb g src s =
        { buildOverlay s with
          currentGroup := some g
          openCalls := (buildOverlay s).openCalls + 1
          overlayOpen := true
          scrollLock := true } ∧
      (openLb g src s).currentIndex = -1 := by
  have h1 : openLb g src s =
      { buildOverlay s with
        currentGroup := some g
        openCalls := (buildOverlay s).openCalls + 1
        overlayOpen := true
        scrollLock := true } := by
    rw [openLb_def]
    apply showIndex_empty
    rw [currentItems_of _ g rfl]
    show (groupItems (buildOverlay s).groups g).length = 0
    rw [buildOverlay_groups, hempty]
    rfl
  refine ⟨h1, ?_⟩
  rw [h1]
  show (buildOverlay s).currentIndex = -1
  rw [buildOverlay_currentIndex, hclosed]

theorem open_empty_group_no_op_witness :
    groupItems sLoaded.groups "nogroup" = [] ∧
      sLoaded.currentIndex = -1 ∧
      (openLb "nogroup" none sLoaded =
          { buildOverlay sLoaded with
            currentGroup := some "nogroup"
            openCalls := (buildOverlay sLoaded).openCalls + 1
            overlayOpen := true
            scrollLock := true } ∧
        (openLb "nogroup" none sLoaded).currentIndex = -1) :=
  ⟨by decide, by decide,
    open_empty_group_no_op sLoaded "nogroup" none (by decide) (by decide)⟩

/-- C7: `hide()` removes the open class from the overlay, releases the
page scroll lock, and resets the current index to the unset sentinel
`-1`, while leaving the group table (hence every group) and the
current group name unchanged. -/
theorem hide_resets_session (s : State) (h : s.overlayBuilt = true) :
    (hide s).overlayOpen = false ∧ (hide s).scrollLock = false ∧
      (hide s).currentIndex = -1 ∧ (hide s).groups = s.groups ∧
      (hide s).currentGroup = s.currentGroup :=
  ⟨rfl, rfl, rfl, rfl, rfl⟩

theorem hide_resets_session_witness :
    sOpenB.overlayBuilt = true ∧
      ((hide sOpenB).overlayOpen = false ∧ (hide sOpenB).scrollLock = false ∧
        (hide sOpenB).currentIndex = -1 ∧ (hide sOpenB).groups = sOpenB.groups ∧
        (hide sOpenB).currentGroup = sOpenB.currentGroup) :=
  ⟨by decide, hide_resets_session sOpenB (by decide)⟩

/-- C8: after `hide()` the overlay visibility flag is off, and the
global keyboard listener is gated solely by that flag, so any sequence
of arrow-key events leaves the whole state (display and session)
unchanged until another `open()` call. -/
theorem arrow_keys_noop_after_hide (s : State) (keys : List String)
    (hk : ∀ k ∈ keys, k = "ArrowLeft" ∨ k = "ArrowRight") :
    keys.foldl (fun st k => keydown k st) (hide s) = hide s :=
  foldl_keydown_closed (hide s) rfl keys

theorem arrow_keys_noop_after_hide_witness :
    (∀ k ∈ ["ArrowLeft", "ArrowRight", "ArrowLeft"],
        k = "ArrowLeft" ∨ k = "ArrowRight") ∧
      ["ArrowLeft", "ArrowRight", "ArrowLeft"].foldl
          (fun st k => keydown k st) (hide sOpenB) = hide sOpenB :=
  ⟨by decide,
    arrow_keys_noop_after_hide sOpenB ["ArrowLeft", "ArrowRight", "ArrowLeft"] (by decide)⟩

/-- C9: `refresh()` twice against unchanged markup yields the
identical group table both times (same names, same item sequences),
because each call clears and fully rebuilds the grouping from the
document. -/
theorem refresh_idempotent (doc : List Anchor) (s : State) :
    (prepareGroups doc (prepareGroups doc s)).groups = (prepareGroups doc s).groups := rfl

/-! ### C5: anchors without a link target -/

/-- An eligible anchor with no `href` attribute. -/
def anchorNoHref : Anchor :=
  { dataLightbox := some "g", href := none, dataTitle := none, title := none, imgAlt := none }

/-- A document holding only `anchorNoHref`. -/
def docNoHref : List Anchor := [anchorNoHref]

theorem mkItem_mem_docOrderItems :
    ∀ (doc : List Anchor) (n i : Nat) (a : Anchor),
      doc[i]? = some a → a.dataLightbox.isSome = true →
      mkItem (n + i) a ∈ docOrderItems n (groupKey a) doc := by
  intro doc
  induction doc with
  | nil => intro n i a h _; simp at h
  | cons b rest ih =>
      intro n i a h helig
      cases i with
      | zero =>
          simp only [List.getElem?_cons_zero, Option.some_inj] at h
          subst h
          simp only [docOrderItems, Nat.add_zero]
          rw [if_pos ⟨helig, trivial⟩]
          exact List.mem_append_left _ (List.mem_singleton.mpr rfl)
      | succ j =>
          have h' : rest[j]? = some a := by simpa using h
          simp only [docOrderItems]
          apply List.mem_append_right
          have := ih (n + 1) j a h' helig
          rwa [show n + 1 + j = n + (j + 1) by omega] at this

/-- C5 counterexample: indexing a document whose only anchor has no
link target stores the item with an unset (`none`, JS `null`) source,
not with the empty-string source the claim states. -/
theorem missing_href_empty_string_cex :
    groupItems (buildGroups docNoHref) "g" =
        [{ link := 0, src := none, title := "" }] ∧
      groupItems (buildGroups docNoHref) "g" ≠
        [{ link := 0, src := some "", title := "" }] := by
  decide

/-- C5 (amended): every eligible anchor with no resolvable link target
(no `href`) is still included in its group — its item carries an unset
(`null`) source rather than being skipped or failing. -/
theorem missing_href_included (doc : List Anchor) (i : Nat) (a : Anchor)
    (hi : doc[i]? = some a)
    (helig : a.dataLightbox.isSome = true)
    (hhref : a.href = none) :
    mkItem i a ∈ groupItems (buildGroups doc) (groupKey a) ∧
      (mkItem i a).src = none := by
  constructor
  · rw [groupItems_buildGroups]
    have := mkItem_mem_docOrderItems doc 0 i a hi helig
    simpa using this
  · simp [mkItem, hhref]

theorem missing_href_included_witness :
    docNoHref[0]? = some anchorNoHref ∧
      anchorNoHref.dataLightbox.isSome = true ∧
      anchorNoHref.href = none ∧
      (mkItem 0 anchorNoHref ∈ groupItems (buildGroups docNoHref) (groupKey anchorNoHref) ∧
        (mkItem 0 anchorNoHref).src = none) :=
  ⟨by decide, by decide, by decide,
    missing_href_included docNoHref 0 anchorNoHref (by decide) (by decide) (by decide)⟩

/-! ### C6: caption resolution -/

/-- An anchor whose explicit title attribute is present but empty,
while its generic title attribute is nonempty. -/
def anchorEmptyTitle : Anchor :=
  { dataLightbox := some "g", href := some "/x.jpg",
    dataTitle := some "", title := some "T", imgAlt := none }

/-- An anchor with no caption-bearing attribute at all. -/
def anchorNoCaption : Anchor :=
  { dataLightbox := some "", href := some "/solo.jpg",
    dataTitle := none, title := none, imgAlt := none }

theorem strOr_eq_nonEmptyAttr (x y : Option String) :
    strOr x y = match nonEmptyAttr x with | some t => some t | none => y := by
  cases x with
  | none => rfl
  | some t => by_cases h : t = "" <;> simp [strOr, nonEmptyAttr, h]

theorem caption_eq_amended (a : Anchor) : caption a = captionAmended a := by
  unfold caption captionAmended
  rw [strOr_eq_nonEmptyAttr a.dataTitle, strOr_eq_nonEmptyAttr a.title]
  cases nonEmptyAttr a.dataTitle with
  | some t => rfl
  | none =>
      cases nonEmptyAttr a.title with
      | some t => rfl
      | none =>
          cases a.imgAlt with
          | none => rfl
          | some v => by_cases hv : v = "" <;> simp [nonEmptyAttr, hv]

/-- C6 counterexample: on `anchorEmptyTitle` the code stores caption
`T` (the empty explicit title attribute is falsy and falls through),
while resolution by attribute presence alone, as the claim states it,
yields the empty string. -/
theorem caption_priority_cex :
    caption anchorEmptyTitle = "T" ∧
      captionClaimed anchorEmptyTitle = "" ∧
      caption anchorEmptyTitle ≠ captionClaimed anchorEmptyTitle ∧
      groupItems (buildGroups [anchorEmptyTitle]) "g" =
        [{ link := 0, src := some "/x.jpg", title := "T" }] := by
  decide

/-- C6 (amended): the caption is resolved in priority order over the
present-and-nonempty attributes — explicit title, generic title,
contained image alternative text — and is the empty string when none
is present with a nonempty value; rendering writes the shown item's
resolved caption to both the caption region text and the displayed
image's alternative text (so both are empty when no caption resolved). -/
theorem caption_priority_nonempty (a : Anchor) (s : State) (i : Int)
    (h0 : (currentItems s).length ≠ 0) :
    caption a = captionAmended a ∧
      (showIndex i s).captionText =
        ((currentItems s).getD ((showIndex i s).currentIndex).toNat defaultItem).title ∧
      (showIndex i s).imgAlt = (showIndex i s).captionText :=
  ⟨caption_eq_amended a, (showIndex_render s i h0).1, (showIndex_render s i h0).2⟩

theorem caption_priority_nonempty_witness :
    (currentItems sOpenSolo).length ≠ 0 ∧
      (caption anchorNoCaption = captionAmended anchorNoCaption ∧
        (showIndex 0 sOpenSolo).captionText =
          ((currentItems sOpenSolo).getD
            ((showIndex 0 sOpenSolo).currentIndex).toNat defaultItem).title ∧
        (showIndex 0 sOpenSolo).imgAlt = (showIndex 0 sOpenSolo).captionText) :=
  ⟨by decide, caption_priority_nonempty anchorNoCaption sOpenSolo 0 (by decide)⟩

/-! ### C10: click-interceptor accumulation across refreshes -/

theorem listenersFrom_anchor_ge :
    ∀ (doc : List Anchor) (n : Nat) (l : Listener),
      l ∈ listenersFrom n doc → n ≤ l.anchor := by
  intro doc
  induction doc with
  | nil => intro n l h; simp [listenersFrom] at h
  | cons a rest ih =>
      intro n l h
      simp only [listenersFrom] at h
      rcases List.mem_append.mp h with h1 | h2
      · by_cases he : a.dataLightbox.isSome = true
        · rw [if_pos he] at h1
          rw [List.mem_singleton.mp h1]
        · rw [if_neg he] at h1
          simp at h1
      · have := ih (n + 1) l h2
        omega

theorem listenersFrom_filter :
    ∀ (doc : List Anchor) (n i : Nat) (a : Anchor),
      doc[i]? = some a →
      (listenersFrom n doc).filter (fun l => l.anchor == n + i) =
        (if a.dataLightbox.isSome
          then [{ anchor := n + i, group := groupKey a, src := a.href }]
          else []) := by
  intro doc
  induction doc with
  | nil => intro n i a h; simp at h
  | cons b rest ih =>
      intro n i a h
      cases i with
      | zero =>
          simp only [List.getElem?_cons_zero, Option.some_inj] at h
          subst h
          simp only [listenersFrom, Nat.add_zero]
          rw [List.filter_append]
          have hrest : (listenersFrom (n + 1) rest).filter (fun l => l.anchor == n) = [] := by
            rw [List.filter_eq_nil_iff]
            intro l hl
            have := listenersFrom_anchor_ge rest (n + 1) l hl
            simp only [beq_iff_eq]
            omega
          rw [hrest]
          by_cases he : b.dataLightbox.isSome = true
          · rw [if_pos he]
            simp
          · rw [if_neg he]
            rfl
      | succ j =>
          have h' : rest[j]? = some a := by simpa using h
          simp only [listenersFrom]
          rw [List.filter_append]
          have hpre : (if b.dataLightbox.isSome
              then [({ anchor := n, group := groupKey b, src := b.href } : Listener)]
              else []).filter (fun l => l.anchor == n + (j + 1)) = [] := by
            split
            · simp only [List.filter_cons, List.filter_nil]
              rw [if_neg (by simp only [beq_iff_eq]; omega)]
            · rfl
          rw [hpre, List.nil_append,
            show n + (j + 1) = (n + 1) + j by omega, ih (n + 1) j a h']

theorem iterate_prepareGroups_listeners (doc : List Anchor) (p : Listener → Bool) :
    ∀ (k : Nat) (s : State),
      ((prepareGroups doc)^[k] s).listeners.filter p =
        s.listeners.filter p ++
          (List.replicate k ((listenersFor doc).filter p)).flatten := by
  intro k
  induction k with
  | zero => intro s; simp
  | succ m ih =>
      intro s
      rw [Function.iterate_succ_apply, ih (prepareGroups doc s)]
      show (s.listeners ++ listenersFor doc).filter p ++ _ = _
      rw [List.filter_append, List.append_assoc, List.replicate_succ, List.flatten_cons]

theorem flatten_replicate_singleton (k : Nat) (x : Listener) :
    (List.replicate k [x]).flatten = List.replicate k x := by
  induction k with
  | zero => rfl
  | succ m ih => simp [List.replicate_succ, ih]

theorem iterate_prepareGroups_groups (doc : List Anchor) (s : State) (k : Nat)
    (hk : 1 ≤ k) : ((prepareGroups doc)^[k] s).groups = buildGroups doc := by
  cases k with
  | zero => omega
  | succ m =>
      rw [Function.iterate_succ_apply']
      rfl

theorem foldl_openLb_openCalls (ls : List Listener) :
    ∀ s : State,
      (ls.foldl (fun st l => openLb l.group l.src st) s).openCalls =
        s.openCalls + ls.length := by
  induction ls with
  | nil => intro s; simp
  | cons l rest ih =>
      intro s
      rw [List.foldl_cons, ih]
      have hone : (openLb l.group l.src s).openCalls = s.openCalls + 1 := by
        rw [openLb_def, showIndex_openCalls]
        show (buildOverlay s).openCalls + 1 = s.openCalls + 1
        rw [buildOverlay_openCalls]
      rw [hone, List.length_cons]
      omega

/-- C10: each call of `refresh()` (`prepareGroups`) attaches a fresh
click interceptor to every matched anchor without removing earlier
ones: starting with no interceptors, after `k ≥ 1` refreshes over
unchanged markup, the eligible anchor at document position `i` carries
exactly `k` interceptors, all capturing the same `(group, src)` pair,
so a single unmodified primary-button click on that anchor invokes
`open(group, src)` `k` times — while the group table itself is simply
rebuilt to `buildGroups doc`. -/
theorem refresh_accumulates_click_listeners (doc : List Anchor) (s0 : State)
    (i : Nat) (a : Anchor) (k : Nat) (c : Click)
    (h0 : s0.listeners = [])
    (hi : doc[i]? = some a)
    (helig : a.dataLightbox.isSome = true)
    (hk : 1 ≤ k)
    (hc : plainClick c = true) :
    ((prepareGroups doc)^[k] s0).listeners.filter (fun l => l.anchor == i) =
        List.replicate k { anchor := i, group := groupKey a, src := a.href } ∧
      ((prepareGroups doc)^[k] s0).groups = buildGroups doc ∧
      (clickAnchor i c ((prepareGroups doc)^[k] s0)).openCalls =
        ((prepareGroups doc)^[k] s0).openCalls + k := by
  have hfilter : (listenersFor doc).filter (fun l => l.anchor == i) =
      [{ anchor := i, group := groupKey a, src := a.href }] := by
    have h := listenersFrom_filter doc 0 i a hi
    rw [if_pos helig] at h
    simpa [listenersFor] using h
  have h1 : ((prepareGroups doc)^[k] s0).listeners.filter (fun l => l.anchor == i) =
      List.replicate k { anchor := i, group := groupKey a, src := a.href } := by
    rw [iterate_prepareGroups_listeners doc _ k s0, h0, hfilter,
      flatten_replicate_singleton]
    rfl
  refine ⟨h1, iterate_prepareGroups_groups doc s0 k hk, ?_⟩
  unfold clickAnchor
  rw [if_pos hc, h1, foldl_openLb_openCalls, List.length_replicate]

/-- The second anchor of `docA`, as indexed by the witness below. -/
def anchorB : Anchor :=
  { dataLightbox := some "vacation", href := some "/b.jpg",
    dataTitle := none, title := some "B", imgAlt := none }

/-- An unmodified primary-button click. -/
def clickPlain : Click :=
  { button := 0, metaKey := false, ctrlKey := false, shiftKey := false, altKey := false }

theorem refresh_accumulates_click_listeners_witness :
    initState.listeners = [] ∧
      docA[1]? = some anchorB ∧
      anchorB.dataLightbox.isSome = true ∧
      1 ≤ 2 ∧
      plainClick clickPlain = true ∧
      (((prepareGroups docA)^[2] initState).listeners.filter (fun l => l.anchor == 1) =
          List.replicate 2 { anchor := 1, group := groupKey anchorB, src := anchorB.href } ∧
        ((prepareGroups docA)^[2] initState).groups = buildGroups docA ∧
        (clickAnchor 1 clickPlain ((prepareGroups docA)^[2] initState)).openCalls =
          ((prepareGroups docA)^[2] initState).openCalls + 2) :=
  ⟨rfl, by decide, by decide, by decide, by decide,
    refresh_accumulates_click_listeners docA initState 1 anchorB 2 clickPlain
      rfl (by decide) (by decide) (by decide) (by decide)⟩

end GdLightbox
